import Mathlib

/-!
Verification of the spec-stats delay reporter against its two source
variants: `src/index.js` (the cached-affiliation variant) and
`src/unnamed/part_000` (the direct-probe variant).

Shallow embedding conventions:
  * JS timestamps (the values produced by `Date.parse` on `created_at`
    strings) are modelled as integers counting milliseconds; a missing or
    null `created_at` field is modelled as `none`.
  * JS `Map` objects are modelled as association lists in insertion order;
    `Map.get` is modelled by `lookupKey` below.
  * A JS exception thrown by a computation is modelled as `Except.error`
    carrying the message text; a normal result is `Except.ok`.
  * Network membership probes (`octokit.orgs.checkMembershipForUser`),
    which either succeed or throw, are modelled by a pure oracle
    `probe : String → String → Bool` (org, username); `true` models a
    successful probe, `false` models the thrown-and-ignored failure.
-/

set_option autoImplicit false

namespace SpecStats

/-- Event actor as delivered by the API: a login and a `type` field whose
value is the string `"User"` for human accounts. -/
structure Actor where
  login : String
  type : String
deriving DecidableEq, Repr

/-- Timeline event: an optional timestamp (`none` models a null or missing
`created_at`) and an actor. -/
structure Event where
  created_at : Option Int
  actor : Actor
deriving DecidableEq, Repr

/-- Issue: creation timestamp (milliseconds), the reporting user, and the
canonical web URL. -/
structure Issue where
  created_at : Int
  user : Actor
  html_url : String
deriving DecidableEq, Repr

/-- Milliseconds in a day, the `24 * 3600 * 1000` of both sources. -/
def MS_PER_DAY : Int := 24 * 3600 * 1000

/-- Association-list lookup modelling `Map.get` keyed by strings. -/
def lookupKey {α : Type} (k : String) : List (String × α) → Option α
  | [] => none
  | (k2, v) :: rest => if k2 = k then some v else lookupKey k rest

namespace IndexJs

/-- Lines 136-151 of `src/index.js`: the predicate passed to
`events.find`. An event is interesting when it has a (truthy) timestamp,
its actor type is exactly the string `"User"`, and its actor login differs
from the issue reporter login. -/
def interestingEvent (issue : Issue) (event : Event) : Bool :=
  if event.created_at.isNone then false
  else if event.actor.type ≠ "User" then false
  else if event.actor.login = issue.user.login then false
  else true

/-- Lines 136-151 of `src/index.js`: `events.find(...)`, the first event
satisfying the predicate, in sequence order. -/
def firstInterestingEvent (issue : Issue) (events : List Event) : Option Event :=
  events.find? (interestingEvent issue)

/-- Lines 152-155 of `src/index.js`:
`Math.round((t1 - t0) / (24 * 3600 * 1000))`. JS `Math.round x` is
`floor (x + 1/2)`; on the exact rational `n / d` with `d > 0` this equals
the integer floor division `(2 * n + d) / (2 * d)`. -/
def dayDelay (t0 t1 : Int) : Int :=
  (2 * (t1 - t0) + MS_PER_DAY) / (2 * MS_PER_DAY)

end IndexJs

namespace Part000

/-- Lines 134-149 of `src/unnamed/part_000`: the predicate passed to
`events.find`, textually identical to the index.js one. -/
def interestingEvent (issue : Issue) (event : Event) : Bool :=
  if event.created_at.isNone then false
  else if event.actor.type ≠ "User" then false
  else if event.actor.login = issue.user.login then false
  else true

/-- Lines 134-149 of `src/unnamed/part_000`: `events.find(...)`. -/
def firstInterestingEvent (issue : Issue) (events : List Event) : Option Event :=
  events.find? (interestingEvent issue)

/-- Lines 150-153 of `src/unnamed/part_000`:
`Math.round((t1 - t0) / (24 * 3600 * 1000))`, same modelling as the
index.js variant. -/
def dayDelay (t0 t1 : Int) : Int :=
  (2 * (t1 - t0) + MS_PER_DAY) / (2 * MS_PER_DAY)

end Part000

/-- Qualification predicate as the spec words it: a non-null timestamp, a
human actor kind, and an actor identifier different from the reporter. -/
def qualifies (issue : Issue) (e : Event) : Prop :=
  e.created_at ≠ none ∧ e.actor.type = "User" ∧ e.actor.login ≠ issue.user.login

instance (issue : Issue) (e : Event) : Decidable (qualifies issue e) := by
  unfold qualifies
  infer_instance

/-- Parsed URL as produced by the WHATWG `new URL` constructor; only the
two fields the source reads are modelled. The constructor itself is
external library code, so `optionsFromURL` is modelled on the parsed
value. -/
structure ParsedURL where
  hostname : String
  pathname : String
deriving DecidableEq, Repr

/-- The `{owner, repo}` object returned on successful parsing. -/
structure RepoOptions where
  owner : String
  repo : String
deriving DecidableEq, Repr

/-- Split a character list at every slash, preserving empty pieces, as JS
`split('/')` does ("/a/b" gives ["", "a", "b"]). -/
def splitSlashAux : List Char → List Char → List (List Char)
  | [], acc => [acc.reverse]
  | c :: cs, acc =>
      if c = '/' then acc.reverse :: splitSlashAux cs []
      else splitSlashAux cs (c :: acc)

/-- JS `pathname.split('/')` on the underlying character list. -/
def splitSlash (s : String) : List String :=
  (splitSlashAux s.data []).map (fun l => String.mk l)

/-- JS `pathname.split('/').filter((s) => s)`: split on slashes and keep
the truthy (non-empty) segments. -/
def pathSegments (pathname : String) : List String :=
  (splitSlash pathname).filter (fun s => !s.isEmpty)

/-- Lines 46-57 of `src/index.js` (48-59 of `part_000`, identical): reject
a host other than `github.com`; reject a path without exactly two
non-empty segments; otherwise return the owner and repo segments. -/
def optionsFromURL (url : ParsedURL) : Option RepoOptions :=
  if url.hostname ≠ "github.com" then none
  else
    let parts := pathSegments url.pathname
    if h : parts.length = 2 then
      some ⟨parts.get ⟨0, by omega⟩, parts.get ⟨1, by omega⟩⟩
    else none

/-- Nightly metadata of a browser-specs record: the document URL and the
source repository URL. -/
structure Nightly where
  url : String
  repository : String
deriving DecidableEq, Repr

/-- One record of the specification registry. -/
structure BrowserSpec where
  nightly : Nightly
deriving DecidableEq, Repr

/-- The domain-suffix constant of both sources. -/
def SPEC_DOMAIN : String := "spec.whatwg.org/"

/-- Lines 34-44 of `src/index.js` (36-46 of `part_000`, identical): keep
the specs whose nightly URL ends with `SPEC_DOMAIN`, collect the distinct
repository URLs (`Set`), and sort them (`Array.sort` with the default
lexicographic comparator). -/
def listRepositories (specs : List BrowserSpec) : List String :=
  List.insertionSort (fun a b : String => a ≤ b)
    (((specs.filter (fun s => s.nightly.url.endsWith SPEC_DOMAIN)).map
      (fun s => s.nightly.repository)).dedup)

/-- The unaffiliated sentinel string of `src/index.js`. -/
def UNKNOWN_ORG : String := "unaffiliated"

/-- JS truthiness of a string: falsy exactly when empty. -/
def jsTruthy (s : String) : Bool := !s.isEmpty

/-- Lines 107-113 of `src/index.js` (105-111 of `part_000`, identical):
append a delay to the list recorded for `org`, creating the entry (at the
end of the map, as `Map.set` does for a fresh key) when absent. -/
def addDelay (m : List (String × List Int)) (org : String) (delay : Int) :
    List (String × List Int) :=
  match m with
  | [] => [(org, [delay])]
  | (k, v) :: rest =>
      if k = org then (k, v ++ [delay]) :: rest
      else (k, v) :: addDelay rest org delay

/-- The accumulator produced by a run that records the given (org, delay)
pairs in order, starting from the empty map. -/
def buildAccumulator (ops : List (String × Int)) : List (String × List Int) :=
  ops.foldl (fun m p => addDelay m p.1 p.2) []

/-- JS `Array.prototype.reduce((a, b) => a + b)` with no initial value:
throws a TypeError on an empty array (modelled as `Except.error` with the
message text), otherwise folds from the first element. -/
def reduce1 (l : List Int) : Except String Int :=
  match l with
  | [] => Except.error "Reduce of empty array with no initial value"
  | x :: xs => Except.ok (xs.foldl (fun a b => a + b) x)

namespace IndexJs

/-- Line 167 of `src/index.js`:
`Math.floor(times.reduce((a, b) => a + b) / times.length)`. Integer floor
division models `Math.floor` of the exact quotient. -/
def vendorAvgDelay (times : List Int) : Except String Int :=
  (reduce1 times).map (fun s => s / (times.length : Int))

/-- Lines 171-174 of `src/index.js`:
`totalTimes = totalTimes.concat(times)` over all value lists of the
accumulator, in map order. -/
def totalTimes (m : List (String × List Int)) : List Int :=
  m.foldl (fun acc p => acc ++ p.2) []

/-- Line 175 of `src/index.js`: overall average with `Math.floor`. -/
def totalAvgDelay (m : List (String × List Int)) : Except String Int :=
  (reduce1 (totalTimes m)).map (fun s => s / ((totalTimes m).length : Int))

/-- Result of one `getVendorMember` call of `src/index.js`: the returned
value, the cache after the call, and the number of membership probes
performed during the call. -/
structure MemberResult where
  vendor : String
  cache : List (String × String)
  probes : Nat
deriving DecidableEq, Repr

/-- Loop of lines 80-86 of `src/index.js`: probe each org in order; a
failed probe is ignored and the scan continues; return the first success,
or the sentinel when none succeeds; the second component counts the
probes performed. -/
def probeScan (probe : String → String → Bool) (username : String) :
    List String → String × Nat
  | [] => (UNKNOWN_ORG, 0)
  | org :: rest =>
      if probe org username then (org, 1)
      else
        let r := probeScan probe username rest
        (r.1, r.2 + 1)

/-- Lines 76-89 of `src/index.js`: consult the cache first, returning the
cached value with no probe; on a miss, scan the vendor orgs and cache the
outcome (the first successful org, or the unaffiliated sentinel). -/
def getVendorMember (probe : String → String → Bool)
    (cache : List (String × String)) (username : String) (vendors : List String) :
    MemberResult :=
  match lookupKey username cache with
  | some v => ⟨v, cache, 0⟩
  | none =>
      let r := probeScan probe username vendors
      ⟨r.1, (username, r.1) :: cache, r.2⟩

/-- Per-issue iteration state of the run: the membership cache and the
response-time accumulator. -/
structure RunState where
  vendorMembers : List (String × String)
  responseTimes : List (String × List Int)
deriving DecidableEq, Repr

/-- Outcome of one issue iteration, mirroring the console output. -/
inductive IssueOutput where
  | skipped
  | noActivity (url : String)
  | firstActivity (url : String) (delay : Int)
deriving DecidableEq, Repr

/-- Lines 129-160 of `src/index.js`: one iteration of the issue loop.
The author is resolved with `getVendorMember` (against
`vendorOrgs.keys()`, passed here as `vendors`); the guard `if (!vendor)`
tests JS string truthiness; otherwise the first interesting event is
selected and, when present, the day-delay is appended under the resolved
vendor. `Date.parse(firstInterestingEvent.created_at)` is modelled by
`getD 0`; the selection predicate guarantees the timestamp is present, so
the default is never used. -/
def processIssue (probe : String → String → Bool) (vendors : List String)
    (st : RunState) (issue : Issue) (events : List Event) :
    RunState × IssueOutput :=
  let r := getVendorMember probe st.vendorMembers issue.user.login vendors
  if !jsTruthy r.vendor then
    ({ st with vendorMembers := r.cache }, IssueOutput.skipped)
  else
    match firstInterestingEvent issue events with
    | some e =>
        let delay := dayDelay issue.created_at (e.created_at.getD 0)
        (⟨r.cache, addDelay st.responseTimes r.vendor delay⟩,
         IssueOutput.firstActivity issue.html_url delay)
    | none =>
        ({ st with vendorMembers := r.cache }, IssueOutput.noActivity issue.html_url)

end IndexJs

namespace Part000

/-- Lines 163-164 of `src/unnamed/part_000`:
`times.reduce((a, b) => a + b) / times.length` with no floor; the JS float
division is modelled exactly as a rational. -/
def vendorAvgDelay (times : List Int) : Except String ℚ :=
  (reduce1 times).map (fun s => (s : ℚ) / (times.length : ℚ))

/-- Lines 167-170 of `src/unnamed/part_000`: `const totalTimes = [];`
then, per value list, `totalTimes.concat(times);` whose result is
discarded (`Array.concat` does not mutate its receiver), so `totalTimes`
stays empty. -/
def totalTimes (m : List (String × List Int)) : List Int :=
  m.foldl (fun acc p => let discarded := acc ++ p.2; (fun _ => acc) discarded) []

/-- Line 171 of `src/unnamed/part_000`: overall average, exact mean of
`totalTimes`. -/
def totalAvgDelay (m : List (String × List Int)) : Except String ℚ :=
  (reduce1 (totalTimes m)).map (fun s => (s : ℚ) / ((totalTimes m).length : ℚ))

end Part000

/-- The boolean predicate of the source agrees with the spec-side
qualification predicate. -/
theorem interestingEvent_iff_qualifies (issue : Issue) (e : Event) :
    IndexJs.interestingEvent issue e = true ↔ qualifies issue e := by
  cases e with
  | mk ts actor =>
    cases ts <;>
      simp [IndexJs.interestingEvent, qualifies, Option.isNone]

/-- Helper: `find?` returns the element at the first index satisfying the
predicate. -/
theorem find?_eq_get_of_first {α : Type} (p : α → Bool) (l : List α) (k : Nat)
    (hk : k < l.length) (hq : p (l.get ⟨k, hk⟩) = true)
    (hbefore : ∀ j : Nat, (hj : j < l.length) → j < k → p (l.get ⟨j, hj⟩) = false) :
    l.find? p = some (l.get ⟨k, hk⟩) := by
  induction l generalizing k with
  | nil => exact absurd hk (Nat.not_lt_zero k)
  | cons x xs ih =>
    cases k with
    | zero =>
      simp only [List.get] at hq
      simp [List.find?, hq]
    | succ k2 =>
      have hx : p x = false := by
        have := hbefore 0 (Nat.succ_pos _) (Nat.succ_pos _)
        simpa using this
      simp only [List.find?, hx]
      have hk2 : k2 < xs.length := Nat.lt_of_succ_lt_succ hk
      have hq2 : p (xs.get ⟨k2, hk2⟩) = true := by simpa using hq
      have hb2 : ∀ j : Nat, (hj : j < xs.length) → j < k2 → p (xs.get ⟨j, hj⟩) = false := by
        intro j hj hjk
        have := hbefore (j + 1) (Nat.succ_lt_succ hj) (Nat.succ_lt_succ hjk)
        simpa using this
      simpa using ih k2 hk2 hq2 hb2

/-- Claim C4: first-interesting-event selection returns the first event in
sequence order that has a non-null timestamp, a human actor kind, and an
actor identifier different from the issue reporter, regardless of how many
disqualifying events precede it; if no event qualifies the issue is
classified as having no activity (`none`). -/
theorem C4_first_interesting_event_selection (issue : Issue) (events : List Event) :
    (∀ k : Nat, (hk : k < events.length) → qualifies issue (events.get ⟨k, hk⟩) →
      (∀ j : Nat, (hj : j < events.length) → j < k → ¬ qualifies issue (events.get ⟨j, hj⟩)) →
      IndexJs.firstInterestingEvent issue events = some (events.get ⟨k, hk⟩)) ∧
    ((∀ e ∈ events, ¬ qualifies issue e) →
      IndexJs.firstInterestingEvent issue events = none) := by
  constructor
  · intro k hk hq hbefore
    apply find?_eq_get_of_first
    · exact (interestingEvent_iff_qualifies issue _).mpr hq
    · intro j hj hjk
      have := hbefore j hj hjk
      rw [← interestingEvent_iff_qualifies issue] at this
      exact Bool.not_eq_true _ ▸ (by simpa using this)
  · intro hall
    unfold IndexJs.firstInterestingEvent
    rw [List.find?_eq_none]
    intro e he
    rw [interestingEvent_iff_qualifies]
    exact hall e he

/-- Witness for C4 at concrete inputs: a timeline with a null-timestamp
event, a bot event and a same-author event before the first qualifying
event, and a timeline with no qualifying event. -/
theorem C4_witness :
    IndexJs.firstInterestingEvent
        ⟨0, ⟨"alice", "User"⟩, "u"⟩
        [⟨none, ⟨"bob", "User"⟩⟩,
         ⟨some 5, ⟨"robo", "Bot"⟩⟩,
         ⟨some 7, ⟨"alice", "User"⟩⟩,
         ⟨some 9, ⟨"carol", "User"⟩⟩] =
      some ⟨some 9, ⟨"carol", "User"⟩⟩ ∧
    IndexJs.firstInterestingEvent ⟨0, ⟨"alice", "User"⟩, "u"⟩
        [⟨some 5, ⟨"robo", "Bot"⟩⟩] = none := by
  constructor
  · exact (C4_first_interesting_event_selection ⟨0, ⟨"alice", "User"⟩, "u"⟩ _).1
      3 (by decide) (by decide) (by decide)
  · exact (C4_first_interesting_event_selection ⟨0, ⟨"alice", "User"⟩, "u"⟩ _).2
      (by decide)

/-- Claim C5: for creation timestamp T0 and event timestamp T1 with
T1 ≥ T0, the computed day-delay equals round((T1 − T0) / 86400000) with
rounding to the nearest integer (half rounding up, as JS `Math.round`
does), and the result is non-negative. -/
theorem C5_day_delay_rounding (t0 t1 : Int) (h : t0 ≤ t1) :
    IndexJs.dayDelay t0 t1 = round (((t1 : ℚ) - (t0 : ℚ)) / 86400000) ∧
    0 ≤ IndexJs.dayDelay t0 t1 := by
  constructor
  · unfold IndexJs.dayDelay MS_PER_DAY
    rw [round_eq]
    have hcast : ((t1 : ℚ) - (t0 : ℚ)) / 86400000 + 1 / 2 =
        ((2 * (t1 - t0) + 86400000 : ℤ) : ℚ) / ((172800000 : ℕ) : ℚ) := by
      push_cast
      ring
    rw [hcast, Rat.floor_intCast_div_natCast]
    norm_num
  · unfold IndexJs.dayDelay
    apply Int.ediv_nonneg
    · have : (0 : Int) ≤ t1 - t0 := by omega
      unfold MS_PER_DAY
      omega
    · unfold MS_PER_DAY
      omega

/-- Witness for C5 at T0 = 0, T1 = 311040000 (3.6 days): the delay is
round(3.6) = 4 and is non-negative. -/
theorem C5_witness :
    (0 : Int) ≤ 311040000 ∧
    (IndexJs.dayDelay 0 311040000 = round ((((311040000 : Int) : ℚ) - ((0 : Int) : ℚ)) / 86400000) ∧
      0 ≤ IndexJs.dayDelay 0 311040000) :=
  ⟨by decide, C5_day_delay_rounding 0 311040000 (by decide)⟩

/-- Helper: the delay list recorded for `org` after `addDelay` is the
previous list with the new delay appended. -/
theorem lookupKey_addDelay_self (m : List (String × List Int)) (org : String) (delay : Int) :
    lookupKey org (addDelay m org delay) = some ((lookupKey org m).getD [] ++ [delay]) := by
  induction m with
  | nil => simp [addDelay, lookupKey]
  | cons p rest ih =>
    obtain ⟨k, v⟩ := p
    by_cases hk : k = org
    · subst hk
      simp [addDelay, lookupKey]
    · simp [addDelay, lookupKey, hk, ih]

/-- Helper: `addDelay` leaves every other key untouched. -/
theorem lookupKey_addDelay_other (m : List (String × List Int)) (org k : String)
    (delay : Int) (h : k ≠ org) :
    lookupKey k (addDelay m org delay) = lookupKey k m := by
  induction m with
  | nil =>
    have : org ≠ k := fun e => h e.symm
    simp [addDelay, lookupKey, this]
  | cons p rest ih =>
    obtain ⟨k2, v⟩ := p
    by_cases hk2 : k2 = org
    · subst hk2
      have : k2 ≠ k := fun e => h e.symm
      simp [addDelay, lookupKey, this]
    · by_cases hk3 : k2 = k
      · subst hk3
        simp [addDelay, lookupKey, hk2]
      · simp [addDelay, lookupKey, hk2, hk3, ih]

/-- Helper: `addDelay` preserves non-emptiness of every recorded list. -/
theorem addDelay_values_ne_nil (m : List (String × List Int)) (org : String) (delay : Int)
    (h : ∀ k v, lookupKey k m = some v → v ≠ []) :
    ∀ k v, lookupKey k (addDelay m org delay) = some v → v ≠ [] := by
  intro k v hv
  by_cases hk : k = org
  · subst hk
    rw [lookupKey_addDelay_self] at hv
    cases hv
    simp
  · rw [lookupKey_addDelay_other m org k delay hk] at hv
    exact h k v hv

/-- Helper: every list in an accumulator built by a run is non-empty. -/
theorem buildAccumulator_values_ne_nil (ops : List (String × Int)) :
    ∀ k v, lookupKey k (buildAccumulator ops) = some v → v ≠ [] := by
  have main : ∀ (l : List (String × Int)) (m : List (String × List Int)),
      (∀ k v, lookupKey k m = some v → v ≠ []) →
      ∀ k v, lookupKey k (l.foldl (fun m2 p => addDelay m2 p.1 p.2) m) = some v → v ≠ [] := by
    intro l
    induction l with
    | nil => intro m hm; simpa using hm
    | cons p rest ih =>
      intro m hm
      simp only [List.foldl]
      exact ih _ (addDelay_values_ne_nil _ _ _ hm)
  intro k v hv
  refine main ops [] ?_ k v hv
  intro k2 v2 hv2
  simp [lookupKey] at hv2

/-- Claim C9: the response-delay accumulator grows monotonically. The list
recorded for the updated vendor is its previous list with the new delay
appended, every other key is untouched, every previously present value
survives as a prefix of the new value, and every key of an accumulator
built by a run maps to a non-empty list. -/
theorem C9_accumulator_monotone (m : List (String × List Int)) (org : String) (delay : Int) :
    lookupKey org (addDelay m org delay) = some ((lookupKey org m).getD [] ++ [delay]) ∧
    (∀ k, k ≠ org → lookupKey k (addDelay m org delay) = lookupKey k m) ∧
    (∀ k v, lookupKey k m = some v →
      ∃ v2, lookupKey k (addDelay m org delay) = some (v ++ v2)) ∧
    (∀ ops : List (String × Int), ∀ k v,
      lookupKey k (buildAccumulator ops) = some v → v ≠ []) := by
  refine ⟨lookupKey_addDelay_self m org delay,
    fun k hk => lookupKey_addDelay_other m org k delay hk, ?_,
    fun ops => buildAccumulator_values_ne_nil ops⟩
  intro k v hv
  by_cases hk : k = org
  · subst hk
    refine ⟨[delay], ?_⟩
    rw [lookupKey_addDelay_self, hv]
    rfl
  · refine ⟨[], ?_⟩
    rw [lookupKey_addDelay_other m org k delay hk, hv, List.append_nil]

/-- Witness for C9 at a concrete accumulator. -/
theorem C9_witness :
    (("apple" : String) ≠ "google" ∧
      lookupKey "apple" (addDelay [("apple", [2])] "google" 3) =
        lookupKey "apple" [("apple", [2])]) ∧
    (lookupKey "apple" ([("apple", [2])] : List (String × List Int)) = some [2] ∧
      ∃ v2, lookupKey "apple" (addDelay [("apple", [2])] "google" 3) = some ([2] ++ v2)) ∧
    (lookupKey "google" (buildAccumulator [("google", 3)]) = some [3] ∧
      ([3] : List Int) ≠ []) :=
  ⟨⟨by decide, (C9_accumulator_monotone [("apple", [2])] "google" 3).2.1 "apple" (by decide)⟩,
   ⟨rfl, (C9_accumulator_monotone [("apple", [2])] "google" 3).2.2.1 "apple" [2] rfl⟩,
   ⟨rfl, (C9_accumulator_monotone [] "google" 3).2.2.2 [("google", 3)] "google" [3] rfl⟩⟩

/-- Helper: the value returned by `probeScan` is the first org whose probe
succeeds, or the sentinel when none does. -/
theorem probeScan_fst (probe : String → String → Bool) (username : String)
    (vendors : List String) :
    (IndexJs.probeScan probe username vendors).1 =
      (vendors.find? (fun org => probe org username)).getD UNKNOWN_ORG := by
  induction vendors with
  | nil => rfl
  | cons org rest ih =>
    by_cases h : probe org username
    · simp [IndexJs.probeScan, List.find?_cons, h]
    · simp [IndexJs.probeScan, List.find?_cons, h, ih]

/-- Helper: a cache hit returns the cached value with no probe and no
cache change. -/
theorem getVendorMember_hit (probe : String → String → Bool)
    (cache : List (String × String)) (username : String) (vendors : List String)
    (v : String) (hv : lookupKey username cache = some v) :
    IndexJs.getVendorMember probe cache username vendors = ⟨v, cache, 0⟩ := by
  unfold IndexJs.getVendorMember
  rw [hv]

/-- Helper: after any `getVendorMember` call the cache resolves the looked
up user to the returned value. -/
theorem getVendorMember_caches (probe : String → String → Bool)
    (cache : List (String × String)) (username : String) (vendors : List String) :
    lookupKey username (IndexJs.getVendorMember probe cache username vendors).cache =
      some (IndexJs.getVendorMember probe cache username vendors).vendor := by
  cases h : lookupKey username cache with
  | some v =>
    rw [getVendorMember_hit probe cache username vendors v h]
    exact h
  | none =>
    unfold IndexJs.getVendorMember
    rw [h]
    simp [lookupKey]

/-- Claim C8: cached membership lookup. A cache hit returns the cached
value with no probe performed; a lookup repeated after a prior lookup of
the same user returns the prior result with no probe; on a miss the orgs
are probed in order and the first success (or, failing all, the
unaffiliated sentinel) is returned and cached. -/
theorem C8_cached_membership (probe : String → String → Bool)
    (cache : List (String × String)) (username : String) (vendors : List String) :
    (∀ v, lookupKey username cache = some v →
      IndexJs.getVendorMember probe cache username vendors = ⟨v, cache, 0⟩) ∧
    (IndexJs.getVendorMember probe
        (IndexJs.getVendorMember probe cache username vendors).cache username vendors =
      ⟨(IndexJs.getVendorMember probe cache username vendors).vendor,
       (IndexJs.getVendorMember probe cache username vendors).cache, 0⟩) ∧
    (lookupKey username cache = none →
      (IndexJs.getVendorMember probe cache username vendors).vendor =
        (vendors.find? (fun org => probe org username)).getD UNKNOWN_ORG ∧
      (IndexJs.getVendorMember probe cache username vendors).cache =
        (username, (IndexJs.getVendorMember probe cache username vendors).vendor) :: cache) := by
  refine ⟨fun v hv => getVendorMember_hit probe cache username vendors v hv,
    getVendorMember_hit probe _ username vendors _
      (getVendorMember_caches probe cache username vendors), ?_⟩
  intro h
  unfold IndexJs.getVendorMember
  rw [h]
  exact ⟨probeScan_fst probe username vendors, rfl⟩

/-- Witness for C8: a cache hit for bob, and a miss for carol resolved by
probing, with google the first succeeding org. -/
theorem C8_witness :
    (lookupKey "bob" ([("bob", "apple")] : List (String × String)) = some "apple" ∧
      IndexJs.getVendorMember (fun org _ => org == "google") [("bob", "apple")] "bob"
        ["apple", "google"] = ⟨"apple", [("bob", "apple")], 0⟩) ∧
    (lookupKey "carol" ([] : List (String × String)) = none ∧
      (IndexJs.getVendorMember (fun org _ => org == "google") [] "carol"
        ["apple", "google"]).vendor =
        ((["apple", "google"].find? (fun org => (fun org2 _ => org2 == "google") org "carol")).getD
          UNKNOWN_ORG) ∧
      (IndexJs.getVendorMember (fun org _ => org == "google") [] "carol"
        ["apple", "google"]).cache =
        ("carol",
          (IndexJs.getVendorMember (fun org _ => org == "google") [] "carol"
            ["apple", "google"]).vendor) :: []) :=
  ⟨⟨rfl, (C8_cached_membership (fun org _ => org == "google") [("bob", "apple")] "bob"
      ["apple", "google"]).1 "apple" rfl⟩,
   ⟨rfl, (C8_cached_membership (fun org _ => org == "google") [] "carol"
      ["apple", "google"]).2.2 rfl⟩⟩

/-- Claim C6: repository-URL parsing returns the failure marker when the
host is not github.com or the path does not have exactly two non-empty
segments, and returns the (owner, repo) pair when the host matches and
the path has exactly two non-empty segments. -/
theorem C6_url_parsing (url : ParsedURL) :
    ((url.hostname ≠ "github.com" ∨ (pathSegments url.pathname).length ≠ 2) →
      optionsFromURL url = none) ∧
    (∀ owner repo : String, url.hostname = "github.com" →
      pathSegments url.pathname = [owner, repo] →
      optionsFromURL url = some ⟨owner, repo⟩) := by
  constructor
  · intro h
    unfold optionsFromURL
    by_cases hh : url.hostname = "github.com"
    · rcases h with h | h
      · exact absurd hh h
      · simp [hh, h]
    · simp [hh]
  · intro owner repo hh hseg
    unfold optionsFromURL
    simp [hh, hseg]

/-- Witness for C6: a wrong host, a three-segment path, and a well-formed
github URL. -/
theorem C6_witness :
    optionsFromURL ⟨"gitlab.com", "/a/b"⟩ = none ∧
    optionsFromURL ⟨"github.com", "/a/b/c"⟩ = none ∧
    optionsFromURL ⟨"github.com", "/whatwg/html"⟩ = some ⟨"whatwg", "html"⟩ :=
  ⟨(C6_url_parsing ⟨"gitlab.com", "/a/b"⟩).1 (Or.inl (by decide)),
   (C6_url_parsing ⟨"github.com", "/a/b/c"⟩).1 (Or.inr (by decide)),
   (C6_url_parsing ⟨"github.com", "/whatwg/html"⟩).2 "whatwg" "html" rfl (by decide)⟩

/-- Claim C7: repository enumeration yields a sorted, duplicate-free
sequence whose members are exactly the repository URLs of the specs
passing the domain-suffix filter; the output is invariant under
permutation of the registry; an empty registry yields an empty
sequence. -/
theorem C7_repository_enumeration :
    (∀ specs : List BrowserSpec,
      List.Sorted (fun a b : String => a ≤ b) (listRepositories specs) ∧
      (listRepositories specs).Nodup ∧
      (∀ r : String, r ∈ listRepositories specs ↔
        ∃ s ∈ specs, s.nightly.url.endsWith SPEC_DOMAIN = true ∧ s.nightly.repository = r)) ∧
    (∀ specs specs2 : List BrowserSpec, specs.Perm specs2 →
      listRepositories specs = listRepositories specs2) ∧
    listRepositories [] = [] := by
  refine ⟨fun specs => ⟨?_, ?_, ?_⟩, ?_, rfl⟩
  · exact List.sorted_insertionSort _ _
  · exact (List.perm_insertionSort _ _).symm.nodup (List.nodup_dedup _)
  · intro r
    unfold listRepositories
    rw [(List.perm_insertionSort _ _).mem_iff, List.mem_dedup, List.mem_map]
    constructor
    · rintro ⟨s, hs, rfl⟩
      rw [List.mem_filter] at hs
      exact ⟨s, hs.1, hs.2, rfl⟩
    · rintro ⟨s, hs, hend, rfl⟩
      exact ⟨s, List.mem_filter.mpr ⟨hs, hend⟩, rfl⟩
  · intro specs specs2 hperm
    refine List.eq_of_perm_of_sorted ?_
      (List.sorted_insertionSort _ _) (List.sorted_insertionSort _ _)
    exact ((List.perm_insertionSort _ _).trans
      (((hperm.filter _).map _).dedup)).trans (List.perm_insertionSort _ _).symm

/-- Witness for C7: two registries that are permutations of each other
enumerate to the same repository sequence. -/
theorem C7_witness :
    ([(⟨⟨"https://dom.spec.whatwg.org/", "https://github.com/whatwg/dom"⟩⟩ : BrowserSpec),
      ⟨⟨"https://html.spec.whatwg.org/", "https://github.com/whatwg/html"⟩⟩].Perm
      [⟨⟨"https://html.spec.whatwg.org/", "https://github.com/whatwg/html"⟩⟩,
       ⟨⟨"https://dom.spec.whatwg.org/", "https://github.com/whatwg/dom"⟩⟩]) ∧
    listRepositories
        [⟨⟨"https://dom.spec.whatwg.org/", "https://github.com/whatwg/dom"⟩⟩,
         ⟨⟨"https://html.spec.whatwg.org/", "https://github.com/whatwg/html"⟩⟩] =
      listRepositories
        [⟨⟨"https://html.spec.whatwg.org/", "https://github.com/whatwg/html"⟩⟩,
         ⟨⟨"https://dom.spec.whatwg.org/", "https://github.com/whatwg/dom"⟩⟩] :=
  ⟨List.Perm.swap _ _ _,
   C7_repository_enumeration.2.1 _ _ (List.Perm.swap _ _ _)⟩

/-- Counterexample to claim C2 as stated: with no delays recorded at all,
the overall-average computation raises an error (the empty reduce throws
a TypeError, modelled as Except.error) instead of skipping the line. -/
theorem C2_counterexample :
    IndexJs.totalAvgDelay [] =
      Except.error "Reduce of empty array with no initial value" := rfl

/-- Claim C2 as amended: every vendor key of an accumulator built by a run
maps to a non-empty list, so the per-vendor average never divides by zero
and never errors during a run; the summary code has no empty-list guard,
so when no delays were recorded at all the overall-average computation
raises an error instead of skipping the line. -/
theorem C2_amended_summary (ops : List (String × Int)) :
    (∀ k v, lookupKey k (buildAccumulator ops) = some v →
      ∃ a, IndexJs.vendorAvgDelay v = Except.ok a) ∧
    (IndexJs.totalTimes (buildAccumulator ops) = [] →
      IndexJs.totalAvgDelay (buildAccumulator ops) =
        Except.error "Reduce of empty array with no initial value") := by
  constructor
  · intro k v hv
    have hne := buildAccumulator_values_ne_nil ops k v hv
    match v, hne with
    | x :: xs, _ => exact ⟨_, rfl⟩
  · intro h
    unfold IndexJs.totalAvgDelay
    rw [h]
    rfl

/-- Witness for C2 as amended: a run recording one delay, and a run
recording none. -/
theorem C2_witness :
    (lookupKey "google" (buildAccumulator [("google", 3)]) = some [3] ∧
      ∃ a, IndexJs.vendorAvgDelay [3] = Except.ok a) ∧
    (IndexJs.totalTimes (buildAccumulator []) = [] ∧
      IndexJs.totalAvgDelay (buildAccumulator []) =
        Except.error "Reduce of empty array with no initial value") :=
  ⟨⟨rfl, (C2_amended_summary [("google", 3)]).1 "google" [3] rfl⟩,
   ⟨rfl, (C2_amended_summary []).2 rfl⟩⟩

/-- Claim C3 evaluated at the failing input, an accumulator holding delays
[3, 4] for google and [10] for apple. The index.js summary computes the
floor means 3 for google and the overall floor mean 5 of the union; the
part_000 summary computes the exact per-vendor mean 7/2, but its
totalTimes stays empty because the result of Array.concat is discarded,
so its overall-average reduce raises instead of printing the mean of the
union. -/
theorem C3_aggregation_eval :
    IndexJs.vendorAvgDelay [3, 4] = Except.ok 3 ∧
    IndexJs.totalAvgDelay [("google", [3, 4]), ("apple", [10])] = Except.ok 5 ∧
    IndexJs.totalTimes [("google", [3, 4]), ("apple", [10])] = [3, 4, 10] ∧
    Part000.vendorAvgDelay [3, 4] = Except.ok (7 / 2) ∧
    Part000.totalTimes [("google", [3, 4]), ("apple", [10])] = [] ∧
    Part000.totalAvgDelay [("google", [3, 4]), ("apple", [10])] =
      Except.error "Reduce of empty array with no initial value" := by
  refine ⟨rfl, rfl, rfl, ?_, rfl, rfl⟩
  have h : (((3 + 4 : ℤ) : ℚ) / ((2 : ℕ) : ℚ)) = 7 / 2 := by norm_num
  calc Part000.vendorAvgDelay [3, 4]
      = Except.ok (((3 + 4 : ℤ) : ℚ) / ((2 : ℕ) : ℚ)) := rfl
    _ = Except.ok (7 / 2) := congrArg Except.ok h

/-- Claim C1 evaluated: an author all of whose membership probes fail is
resolved to the string "unaffiliated", which is truthy, so the
`if (!vendor) continue` guard of the issue loop does not skip the issue;
its measured delay is recorded under the "unaffiliated" key of the
accumulator. -/
theorem C1_unaffiliated_author_recorded :
    jsTruthy UNKNOWN_ORG = true ∧
    (IndexJs.processIssue (fun _ _ => false)
        ["apple", "google", "microsoft", "mozilla", "unaffiliated"]
        ⟨[], []⟩
        ⟨0, ⟨"alice", "User"⟩, "https://github.com/whatwg/dom/issues/1"⟩
        [⟨some 259200000, ⟨"carol", "User"⟩⟩]).2 =
      IndexJs.IssueOutput.firstActivity "https://github.com/whatwg/dom/issues/1" 3 ∧
    lookupKey "unaffiliated"
      (IndexJs.processIssue (fun _ _ => false)
        ["apple", "google", "microsoft", "mozilla", "unaffiliated"]
        ⟨[], []⟩
        ⟨0, ⟨"alice", "User"⟩, "https://github.com/whatwg/dom/issues/1"⟩
        [⟨some 259200000, ⟨"carol", "User"⟩⟩]).1.responseTimes = some [3] := by
  refine ⟨rfl, rfl, rfl⟩

/-- Claim C10: the two variants share the same per-issue measurement
logic: the first-interesting-event selection and the day-delay computation
of `src/index.js` and of `src/unnamed/part_000` agree on every issue,
every event sequence and every timestamp pair. -/
theorem C10_variants_measurement_equal (issue : Issue) (events : List Event) :
    IndexJs.firstInterestingEvent issue events = Part000.firstInterestingEvent issue events ∧
    ∀ t0 t1 : Int, IndexJs.dayDelay t0 t1 = Part000.dayDelay t0 t1 := by
  exact ⟨rfl, fun _ _ => rfl⟩

end SpecStats
